import Mathlib

/-
Verification development for the mode-picture analysis engine of CustomXepr
(`customxepr/experiment/mode_picture_dataset.py`, class `ModePicture`).

Modelling conventions:
* Python floats and numpy float64 values are modelled as exact rationals (ℚ);
  numpy 1-D arrays and Python lists are modelled as `List ℚ`.
* Python strings are modelled as `List Char`; the metadata dict is modelled as
  an insertion-ordered association list `List (List Char × List Char)` with
  Python-dict assignment semantics (update in place, else append).
* The nonlinear least-squares fit performed by lmfit is an external black box;
  where only its fitted parameters are consumed (the dip center `x0` in
  `combine_data`, the width `w` and its stderr in the Q-value formulas), those
  parameters are universally quantified oracle inputs.
* Stages of the pipeline that can raise Python exceptions are additionally
  modelled in a checked variant returning `Except PyErr`; the error cases
  mirror the exceptions numpy raises at the corresponding lines.
-/

namespace ModePictureModel

/-! ### Basic numpy / Python helpers -/

/-- `np.mean` of a list of rationals.  For an empty list numpy emits a warning
and returns NaN; here the value is the junk value `0 / 0 = 0`, so theorems
about means carry hypotheses keeping the relevant slices non-empty. -/
def meanQ (l : List ℚ) : ℚ := l.sum / (l.length : ℚ)

/-- Python `max(a, b)`. -/
def pyMax2 (a b : ℚ) : ℚ := if a < b then b else a

/-- `np.min` of a list (junk value 0 on the empty list, where numpy raises). -/
def listMinQ : List ℚ → ℚ
  | [] => 0
  | a :: t => t.foldl (fun m v => if v < m then v else m) a

/-- `np.max` of a list (junk value 0 on the empty list, where numpy raises). -/
def listMaxQ : List ℚ → ℚ
  | [] => 0
  | a :: t => t.foldl (fun m v => if m < v then v else m) a

/-- `np.argmin`: index of the first occurrence of the minimum. -/
def argminIdx (l : List ℚ) : ℕ := List.indexOf (listMinQ l) l

/-- The Python slice `l[-k:-1]`.  For `k = 0` this is `l[0:-1]` (all but the
last element); for `k ≥ 1` it is the elements at positions `n-k .. n-2`
(with the start clamped to 0 when `k > n`). -/
def pyNegSlice (l : List ℚ) (k : ℕ) : List ℚ :=
  if k = 0 then l.dropLast else (l.drop (l.length - k)).dropLast

/-- `math.pi` as the exact value of the IEEE-754 double closest to π
(`884279719003555 / 2^48`), matching the float arithmetic of the source. -/
def mathPi : ℚ := 884279719003555 / 281474976710656

/-- Round-half-to-even to an integer, the rounding used by Python `round`. -/
def roundHalfEven (q : ℚ) : ℤ :=
  let f := ⌊q⌋
  let r := q - f
  if r < 1/2 then f
  else if 1/2 < r then f + 1
  else if f % 2 = 0 then f else f + 1

/-- Python `round(x, 1)`: round to one decimal place, half to even. -/
def pyRound1 (q : ℚ) : ℚ := (roundHalfEven (10 * q) : ℚ) / 10

/-- `np.arange(0, n)` as a list of rationals. -/
def arangeQ (n : ℕ) : List ℚ := List.map (fun i : ℕ => (i : ℚ)) (List.range n)

/-- `x[mask]` for a boolean mask computed pointwise from a second array `y` of
the same length: the elements of `x` at the positions where `y` satisfies `p`.
(numpy raises IndexError when the lengths differ; the checked pipeline guards
that case, this total version just truncates to the common length.) -/
def maskSelect (x y : List ℚ) (p : ℚ → Bool) : List ℚ :=
  ((x.zip y).filter (fun q => p q.2)).map Prod.fst

/-! ### `ModePicture._points_to_mhz` (source lines 80–95) -/

/-- `_points_to_mhz(n_points, zf, x0)`:
`x_axis_mhz = 1e-3 / (2 * zf) * (x_axis_points - x0)` over `arange(0, n_points)`. -/
def points_to_mhz (n_points : ℕ) (zf : ℚ) (x0 : ℚ) : List ℚ :=
  (arangeQ n_points).map (fun xi => 1e-3 / (2 * zf) * (xi - x0))

/-! ### `ModePicture._get_fit_starting_points` (source lines 132–153) -/

/-- The `peak_height` computed in `_get_fit_starting_points`: the baseline
(mean of `y_data[0 : int(n_points*0.25)]` averaged with the mean of
`y_data[-int(n_points*0.25) : -1]`, where `n_points = len(x_data)` and
`int(n*0.25)` truncates to `n / 4`) minus `np.min(y_data)`. -/
def peak_height_of (x_data y_data : List ℚ) : ℚ :=
  let q := x_data.length / 4
  let bs1 := meanQ (y_data.take q)
  let bs2 := meanQ (pyNegSlice y_data q)
  (bs1 + bs2) / 2 - listMinQ y_data

/-- `x_data[peak_index]` where `peak_index = y_data < peak_height / 2 +
np.min(y_data)`: the x-positions of the samples inside the dip. -/
def peak_sel (x_data y_data : List ℚ) : List ℚ :=
  maskSelect x_data y_data
    (fun v => decide (v < peak_height_of x_data y_data / 2 + listMinQ y_data))

/-- `_get_fit_starting_points(x_data, y_data)` translated line by line:
dip center `x_data[np.argmin(y_data)]`; `peak_height` from the quartile
baseline; FWHM as the span of `x_data[peak_index]` floored at 1;
area `peak_height * fwhm * math.pi / 2`. -/
def get_fit_starting_points (x_data y_data : List ℚ) : ℚ × ℚ × ℚ :=
  let peak_center := x_data.getD (argminIdx y_data) 0
  let peak_height := peak_height_of x_data y_data
  let sel := peak_sel x_data y_data
  let fwhm := pyMax2 (listMaxQ sel - listMinQ sel) 1
  let peak_area := peak_height * fwhm * mathPi / 2
  (peak_center, fwhm, peak_area)

/-! ### Background isolation inside `fit_qvalue` (source lines 173–178) -/

/-- `idx1 = sum(x_data < (peak_center - 3 * fwhm))`. -/
def bg_idx1 (x_data : List ℚ) (peak_center fwhm : ℚ) : ℕ :=
  (x_data.filter (fun v => decide (v < peak_center - 3 * fwhm))).length

/-- `idx2 = sum(x_data > (peak_center + 3 * fwhm))`. -/
def bg_idx2 (x_data : List ℚ) (peak_center fwhm : ℚ) : ℕ :=
  (x_data.filter (fun v => decide (peak_center + 3 * fwhm < v))).length

/-- `l[0:idx1] ++ l[-idx2:-1]`, the slicing applied to both `x_data` and
`y_data` to build the background sample set. -/
def bg_samples (l : List ℚ) (idx1 idx2 : ℕ) : List ℚ :=
  l.take idx1 ++ pyNegSlice l idx2

/-- `x_bg = np.concatenate((x_data[0:idx1], x_data[-idx2:-1]))` with the
indices computed from the heuristic estimates. -/
def bg_x (x_data : List ℚ) (peak_center fwhm : ℚ) : List ℚ :=
  bg_samples x_data (bg_idx1 x_data peak_center fwhm) (bg_idx2 x_data peak_center fwhm)

/-- `y_bg`, sliced with the indices computed from `x_data`. -/
def bg_y (x_data y_data : List ℚ) (peak_center fwhm : ℚ) : List ℚ :=
  bg_samples y_data (bg_idx1 x_data peak_center fwhm) (bg_idx2 x_data peak_center fwhm)

/-! ### Q-value formulas (source lines 193–197 and 199–212) -/

/-- The Q-value computed at the end of `fit_qvalue` from the fitted width `w`
(an oracle input from the nonlinear fit):
`delta_freq = w * 1e-3 / (2 * zoom_factor)`; `q_value = round(freq0 / delta_freq, 1)`. -/
def fit_qvalue_q (freq0 w zoom_factor : ℚ) : ℚ :=
  let delta_freq := w * 1e-3 / (2 * zoom_factor)
  pyRound1 (freq0 / delta_freq)

/-- `get_qvalue_stderr`: `delta_freq = w * 1e-3 / 2` and
`delta_freq_stderr = w_stderr * 1e-3 / 2` (no zoom factor appears here), then
`round(freq0 / delta_freq ** 2 * delta_freq_stderr, 1)`. -/
def get_qvalue_stderr_q (freq0 w w_stderr : ℚ) : ℚ :=
  let delta_freq := w * 1e-3 / 2
  let delta_freq_stderr := w_stderr * 1e-3 / 2
  pyRound1 (freq0 / delta_freq ^ 2 * delta_freq_stderr)

/-! ### Checked pipeline: the Python exceptions the code can raise -/

/-- Python exceptions relevant to the modelled code paths.  `validationError`
and `parseError` are the error classes named by the specification's error
taxonomy; they appear here only so that theorems can state that the code never
produces them (no such classes exist in the source). -/
inductive PyErr where
  | indexError
  | valueError
  | typeError
  | keyError
  | stopIteration
  | validationError
  | parseError
deriving DecidableEq

instance {ε α : Type} [DecidableEq ε] [DecidableEq α] : DecidableEq (Except ε α) := fun a b =>
  match a, b with
  | .error e, .error e' => decidable_of_iff (e = e') (by simp)
  | .error _, .ok _ => .isFalse (by simp)
  | .ok _, .error _ => .isFalse (by simp)
  | .ok v, .ok v' => decidable_of_iff (v = v') (by simp)

/-- The stages of `fit_qvalue` preceding the nonlinear fit, with every
numpy call that can raise modelled explicitly:
* `np.argmin` on an empty array raises ValueError;
* `x_data[np.argmin(y_data)]` raises IndexError when the index is out of range;
* `x_data[peak_index]` raises IndexError when the boolean mask `peak_index`
  (built from `y_data`) has a different length than `x_data`;
* `np.max` / `np.min` over an empty selection raise ValueError;
* `pmod.guess` (`np.polyfit`) on an empty background raises TypeError.
On success it returns the heuristic starting points. -/
def fit_qvalue_chk (x_data y_data : List ℚ) : Except PyErr (ℚ × ℚ × ℚ) :=
  if y_data.isEmpty then .error .valueError
  else if x_data.length ≤ argminIdx y_data then .error .indexError
  else if y_data.length ≠ x_data.length then .error .indexError
  else if (peak_sel x_data y_data).isEmpty then .error .valueError
  else if (bg_x x_data (get_fit_starting_points x_data y_data).1
      (get_fit_starting_points x_data y_data).2.1).isEmpty then .error .typeError
  else .ok (get_fit_starting_points x_data y_data)

/-! ### `ModePicture.combine_data` (source lines 97–130) -/

/-- Ordering of frequency/absorption pairs by frequency, used to model the
`np.argsort`-and-permute step (sorting the two parallel arrays with a common
sorting permutation is sorting the zipped pairs by first component). -/
def pairLe (a b : ℚ × ℚ) : Prop := a.1 ≤ b.1

instance : DecidableRel pairLe := fun a b => inferInstanceAs (Decidable (a.1 ≤ b.1))

instance : IsTotal (ℚ × ℚ) pairLe := ⟨fun a b => le_total a.1 b.1⟩

instance : IsTrans (ℚ × ℚ) pairLe := ⟨fun _ _ _ h h' => le_trans h h'⟩

/-- The per-zoom loop of `combine_data`: `fit_qvalue(x_axis_points,
mode_pic_data[zf], zf)` is invoked for every entry, and any exception from its
pre-fit stages propagates. -/
def per_zoom_fits (x_axis_points : List ℚ) : List (ℚ × List ℚ) → Except PyErr Unit
  | [] => .ok ()
  | (_, curve) :: rest =>
    match fit_qvalue_chk x_axis_points curve with
    | .error e => .error e
    | .ok _ => per_zoom_fits x_axis_points rest

/-- The combined (frequency, absorption) pairs of `combine_data` before the
sort: the concatenated per-zoom frequency axes zipped with the concatenated
absorption curves.  `x0of` is the oracle for the fitted dip center
`fit_rslt.best_values["x0"]` of each per-zoom nonlinear fit. -/
def combined_unsorted (mode_pic_data : List (ℚ × List ℚ)) (x0of : ℚ → ℚ) : List (ℚ × ℚ) :=
  let n_points := (mode_pic_data.head?.elim 0 (fun p => p.2.length))
  ((mode_pic_data.map (fun p => points_to_mhz n_points p.1 (x0of p.1))).flatten).zip
    ((mode_pic_data.map (fun p => p.2)).flatten)

/-- `combine_data(mode_pic_data)`.  The dict is modelled as an
insertion-ordered association list of (zoom factor, curve) pairs.
`next(iter({}))` on an empty dict raises StopIteration; `n_points` is taken
from the first entry; each entry is run through the (checked) per-zoom fit;
the axes and curves are concatenated, sorted together by ascending frequency
(`np.argsort` + fancy indexing), and the point axis is recomputed as
`2 / 1e-3 * x_axis_mhz_comb`. -/
def combine_data (mode_pic_data : List (ℚ × List ℚ)) (x0of : ℚ → ℚ) :
    Except PyErr (List ℚ × List ℚ × List ℚ) :=
  match mode_pic_data with
  | [] => .error .stopIteration
  | (zf0, curve0) :: rest =>
    let n_points := curve0.length
    let x_axis_points := arangeQ n_points
    match per_zoom_fits x_axis_points ((zf0, curve0) :: rest) with
    | .error e => .error e
    | .ok _ =>
      let sorted := List.insertionSort pairLe
        (combined_unsorted ((zf0, curve0) :: rest) x0of)
      let x_axis_mhz_comb := sorted.map Prod.fst
      let mode_pic_comb := sorted.map Prod.snd
      let x_axis_points_comb := x_axis_mhz_comb.map (fun v => 2 / 1e-3 * v)
      .ok (x_axis_mhz_comb, x_axis_points_comb, mode_pic_comb)

/-! ### `ModePicture.load`, metadata phase (source lines 279–295)

Python strings are modelled as `List Char`; the lines of the file are the
contents of `f.readlines()` with the trailing newline stripped (the regex
groups of line 288 never capture the newline: `.*` stops before it). -/

/-- A metadata dictionary: insertion-ordered association list. -/
abbrev MetaDict := List (List Char × List Char)

/-- Python-dict assignment `d[k] = v`: update the first binding of `k` in
place if present, otherwise append a new binding. -/
def dictSet (d : MetaDict) (k v : List Char) : MetaDict :=
  if d.any (fun p => decide (p.1 = k)) then
    d.map (fun p => if p.1 = k then (k, v) else p)
  else d ++ [(k, v)]

/-- Python-dict lookup returning an option. -/
def dictGet? (d : MetaDict) (k : List Char) : Option (List Char) :=
  (d.find? (fun p => decide (p.1 = k))).map (fun p => p.2)

/-- A `\w` character of the regex module (ASCII inputs): letter, digit or
underscore. -/
def isWordChar (c : Char) : Bool := c.isAlphanum || c = '_'

/-- `re.match(r"# (?P<key>\w*):\t(?P<value>.*)", line)`: an anchored match of
`"# "`, a maximal (possibly empty) run of word characters, then `":\t"`, the
rest being the value.  (Backtracking cannot produce any other split: every
shorter candidate key is followed by a word character, not by `':'`.) -/
def parseHeaderLine (line : List Char) : Option (List Char × List Char) :=
  match line with
  | '#' :: ' ' :: rest =>
    let key := rest.takeWhile isWordChar
    match rest.drop key.length with
    | ':' :: '\t' :: value => some (key, value)
    | _ => none
  | _ => none

/-- `sum(line.startswith("#") for line in lines)`. -/
def headerCount (lines : List (List Char)) : ℕ :=
  (lines.filter (fun l => decide (l.head? = some '#'))).length

/-- `lines[:metadata_length]` where `metadata_length = header_length - 1` is a
Python `int`: for `header_length = 0` the slice bound is `-1`, which denotes
all lines but the last. -/
def metadataLines (lines : List (List Char)) : List (List Char) :=
  if headerCount lines = 0 then lines.dropLast
  else lines.take (headerCount lines - 1)

/-- The metadata dict after the loop of lines 285–290: `self.metadata.clear()`
discards whatever dict `init` held before, then every line of
`lines[:metadata_length]` that matches the header regex is inserted and every
other line is skipped. -/
def load_metadata (init : MetaDict) (lines : List (List Char)) : MetaDict :=
  let _ := init  -- cleared by `self.metadata.clear()` before the loop
  (metadataLines lines).foldl
    (fun d line =>
      match parseHeaderLine line with
      | some kv => dictSet d kv.1 kv.2
      | none => d)
    []

/-- The characters kept by `filter(lambda x: x in "0123456789.", ...)`. -/
def isFreqChar (c : Char) : Bool := c.isDigit || c = '.'

/-- Value of a digit string read in base 10. -/
def digitsToNat (cs : List Char) : ℕ :=
  cs.foldl (fun n c => 10 * n + (c.toNat - '0'.toNat)) 0

/-- The digit decomposition behind `pyFloat?`: integer-part value,
fractional-part value and fractional-digit count of a parsable decimal
string. -/
def pyFloatDigits (cs : List Char) : Option (ℕ × ℕ × ℕ) :=
  if cs.all (fun c => c.isDigit || c = '.') && cs.any (fun c => c.isDigit)
      && decide (cs.count '.' ≤ 1) then
    let intPart := cs.takeWhile (fun c => c ≠ '.')
    let fracPart := (cs.drop intPart.length).drop 1
    some (digitsToNat intPart, digitsToNat fracPart, fracPart.length)
  else none

/-- Python `float(s)` restricted to strings of digits and dots (the only
characters `isFreqChar` lets through): defined exactly when the string has at
least one digit and at most one dot, in which case it denotes the evident
decimal; otherwise `float` raises ValueError. -/
def pyFloat? (cs : List Char) : Option ℚ :=
  (pyFloatDigits cs).map (fun t => (t.1 : ℚ) + (t.2.1 : ℚ) / 10 ^ t.2.2)

/-- Lines 292–295 of `load`: look up `self.metadata["Frequency"]` (KeyError
when absent), keep the characters in `"0123456789."`, and `float` the result
(ValueError when unparsable). -/
def extract_freq0 (meta : MetaDict) : Except PyErr ℚ :=
  match dictGet? meta "Frequency".data with
  | none => .error .keyError
  | some v =>
    match pyFloat? (v.filter isFreqChar) with
    | none => .error .valueError
    | some q => .ok q

/-- The metadata-and-frequency phase of `load` (source lines 285–295):
parse the header into the cleared metadata dict, then extract `freq0`. -/
def load_freq_phase (init : MetaDict) (lines : List (List Char)) : Except PyErr ℚ :=
  extract_freq0 (load_metadata init lines)

/-- The output contract of `combine_data` asserted by C2, for result triple
`(x_axis_mhz_comb, x_axis_points_comb, mode_pic_comb)`: all three sequences
have length equal to the sum of the input curve lengths; the frequency axis
is sorted non-decreasingly; the (frequency, absorption) pairs are a
permutation of the unsorted combined pairs (the sort keeps absorption values
paired with their frequencies); and every point-axis element is 2000 times
the corresponding frequency element. -/
def combineOutputSpec (mode_pic_data : List (ℚ × List ℚ)) (x0of : ℚ → ℚ)
    (x_axis_mhz_comb x_axis_points_comb mode_pic_comb : List ℚ) : Prop :=
  x_axis_mhz_comb.length = (mode_pic_data.map (fun p => p.2.length)).sum ∧
  x_axis_points_comb.length = (mode_pic_data.map (fun p => p.2.length)).sum ∧
  mode_pic_comb.length = (mode_pic_data.map (fun p => p.2.length)).sum ∧
  x_axis_mhz_comb.Sorted (· ≤ ·) ∧
  (x_axis_mhz_comb.zip mode_pic_comb).Perm (combined_unsorted mode_pic_data x0of) ∧
  ∀ i : ℕ, x_axis_points_comb.getD i 0 = 2000 * x_axis_mhz_comb.getD i 0

/-! ### Claim-side definitions, written from the specification's words.
These are compared against the source-derived definitions above; they are
never used to define the embedding itself. -/

/-- Spec side of C4: the background sample set described by the spec — exactly
the samples whose x-value lies outside `[peak_center - 3*fwhm,
peak_center + 3*fwhm]`. -/
def specBgSet (x_data : List ℚ) (peak_center fwhm : ℚ) : List ℚ :=
  x_data.filter (fun v =>
    decide (v < peak_center - 3 * fwhm) || decide (peak_center + 3 * fwhm < v))

/-- Spec side of C5: the starting-point heuristic as the claim words it — the
baseline averages the mean over the first quartile of indices with the mean
over the (full) last quartile of indices. -/
def specStartingPoints (x_data y_data : List ℚ) : ℚ × ℚ × ℚ :=
  let peak_center := x_data.getD (argminIdx y_data) 0
  let q := x_data.length / 4
  let bs1 := meanQ (y_data.take q)
  let bs2 := meanQ (y_data.drop (y_data.length - q))
  let peak_height := (bs1 + bs2) / 2 - listMinQ y_data
  let sel := maskSelect x_data y_data
    (fun v => decide (v < peak_height / 2 + listMinQ y_data))
  let fwhm := pyMax2 (listMaxQ sel - listMinQ sel) 1
  (peak_center, fwhm, peak_height * fwhm * mathPi / 2)

/-- Amended side of C5: as `specStartingPoints`, but the second baseline mean
omits the final sample (indices `n - n/4 .. n - 2`), as the slice
`y_data[-int(n_points*0.25):-1]` does. -/
def amendedStartingPoints (x_data y_data : List ℚ) : ℚ × ℚ × ℚ :=
  let peak_center := x_data.getD (argminIdx y_data) 0
  let q := x_data.length / 4
  let bs1 := meanQ (y_data.take q)
  let bs2 := meanQ ((y_data.drop (y_data.length - q)).dropLast)
  let peak_height := (bs1 + bs2) / 2 - listMinQ y_data
  let sel := maskSelect x_data y_data
    (fun v => decide (v < peak_height / 2 + listMinQ y_data))
  let fwhm := pyMax2 (listMaxQ sel - listMinQ sel) 1
  (peak_center, fwhm, peak_height * fwhm * mathPi / 2)

/-- Spec side of C10: the pairs of all header lines (lines starting with `#`)
that match the metadata pattern, folded into a dict. -/
def specHeaderMeta (lines : List (List Char)) : MetaDict :=
  ((lines.filter (fun l => decide (l.head? = some '#'))).foldl
    (fun d line =>
      match parseHeaderLine line with
      | some kv => dictSet d kv.1 kv.2
      | none => d)
    [])

/-! ### Shared helper lemmas -/

theorem points_to_mhz_length (n : ℕ) (zf x0 : ℚ) : (points_to_mhz n zf x0).length = n := by
  unfold points_to_mhz arangeQ
  rw [List.map_map, List.length_map, List.length_range]

theorem fwhm_ge_one (x y : List ℚ) : 1 ≤ (get_fit_starting_points x y).2.1 := by
  show 1 ≤ pyMax2 (listMaxQ (peak_sel x y) - listMinQ (peak_sel x y)) 1
  unfold pyMax2
  by_cases h : listMaxQ (peak_sel x y) - listMinQ (peak_sel x y) < 1
  · rw [if_pos h]
  · rw [if_neg h]
    exact not_lt.mp h

theorem foldl_min_mem (t : List ℚ) : ∀ a : ℚ,
    t.foldl (fun m v => if v < m then v else m) a ∈ a :: t := by
  induction t with
  | nil => intro a; simp
  | cons v t ih =>
    intro a
    rw [List.foldl_cons]
    rcases List.mem_cons.mp (ih (if v < a then v else a)) with h1 | h1
    · rw [h1]
      by_cases hv : v < a
      · rw [if_pos hv]
        exact List.mem_cons_of_mem a (List.mem_cons_self v t)
      · rw [if_neg hv]
        exact List.mem_cons_self a (v :: t)
    · exact List.mem_cons_of_mem a (List.mem_cons_of_mem v h1)

theorem listMinQ_mem (l : List ℚ) (h : l ≠ []) : listMinQ l ∈ l := by
  cases l with
  | nil => exact absurd rfl h
  | cons a t => simpa [listMinQ] using foldl_min_mem t a

theorem argminIdx_lt_length (l : List ℚ) (h : l ≠ []) : argminIdx l < l.length :=
  List.indexOf_lt_length.mpr (listMinQ_mem l h)

theorem peak_center_mem (x y : List ℚ) (hlen : x.length = y.length) (hne : x ≠ []) :
    (get_fit_starting_points x y).1 ∈ x := by
  have hy : y ≠ [] := by
    intro h
    apply hne
    rw [h] at hlen
    exact List.length_eq_zero.mp (by simpa using hlen)
  have hidx : argminIdx y < x.length := hlen ▸ argminIdx_lt_length y hy
  have : (get_fit_starting_points x y).1 = x.getD (argminIdx y) 0 := by
    simp [get_fit_starting_points]
  rw [this, List.getD_eq_getElem x 0 hidx]
  exact List.getElem_mem hidx

/-! ### C1 -/

/-- C1: for every fitted width `w`, zoom factor `z ≥ 1` and center frequency
`freq0`, `fit_qvalue` returns `round(freq0 / (w * 1e-3 / (2*z)), 1)`, and
`get_qvalue_stderr` returns `round(freq0 / deltaFreq² * deltaFreq_err, 1)`
with `deltaFreq = w * 1e-3 / 2` and `deltaFreq_err = w_stderr * 1e-3 / 2`:
the standard-error derivation always treats the zoom factor as 1. -/
theorem qvalue_and_stderr_formulas (freq0 w w_stderr z : ℚ) (_hz : 1 ≤ z) :
    fit_qvalue_q freq0 w z = pyRound1 (freq0 / (w * 1e-3 / (2 * z))) ∧
    get_qvalue_stderr_q freq0 w w_stderr
      = pyRound1 (freq0 / (w * 1e-3 / 2) ^ 2 * (w_stderr * 1e-3 / 2)) :=
  ⟨rfl, rfl⟩

/-- Witness for C1 at `freq0 = 9.385`, `w = 5`, `w_stderr = 0.1`, `z = 2`. -/
theorem qvalue_and_stderr_formulas_witness :
    fit_qvalue_q 9.385 5 2 = pyRound1 (9.385 / (5 * 1e-3 / (2 * 2))) ∧
    get_qvalue_stderr_q 9.385 5 0.1
      = pyRound1 (9.385 / (5 * 1e-3 / 2) ^ 2 * (0.1 * 1e-3 / 2)) :=
  qvalue_and_stderr_formulas 9.385 5 0.1 2 (by norm_num)

/-! ### C3 -/

/-- C3: for all `n_points ≥ 0`, zoom factor `zf ≥ 1` and center index `x0`,
`_points_to_mhz` returns an ordered sequence of length exactly `n_points`
whose `i`-th element equals `(i - x0) / (2000 * zf)`. -/
theorem points_to_mhz_spec (n : ℕ) (zf x0 : ℚ) (hzf : 1 ≤ zf) :
    (points_to_mhz n zf x0).length = n ∧
    ∀ i : ℕ, i < n →
      (points_to_mhz n zf x0).getD i 0 = ((i : ℚ) - x0) / (2000 * zf) := by
  refine ⟨points_to_mhz_length n zf x0, fun i hi => ?_⟩
  have h1 : (points_to_mhz n zf x0)[i]? = some (1e-3 / (2 * zf) * ((i : ℚ) - x0)) := by
    unfold points_to_mhz arangeQ
    rw [List.map_map, List.getElem?_map, List.getElem?_range hi]
    rfl
  rw [List.getD_eq_getElem?_getD, h1]
  show 1e-3 / (2 * zf) * ((i : ℚ) - x0) = ((i : ℚ) - x0) / (2000 * zf)
  have hz : zf ≠ 0 := by
    intro h
    rw [h] at hzf
    norm_num at hzf
  have he : (1e-3 : ℚ) = 1 / 1000 := by norm_num
  rw [he, div_div, one_div_mul_eq_div]
  rw [show (1000 : ℚ) * (2 * zf) = 2000 * zf by ring]

/-- Witness for C3 at `n_points = 3`, `zf = 2`, `x0 = 1`. -/
theorem points_to_mhz_spec_witness :
    (points_to_mhz 3 2 1).length = 3 ∧
    ∀ i : ℕ, i < 3 → (points_to_mhz 3 2 1).getD i 0 = ((i : ℚ) - 1) / (2000 * 2) :=
  points_to_mhz_spec 3 2 1 (by norm_num)

/-! ### C4 -/

/-- C4 (code bug): evaluation at the failing input `x_data = [0,...,7]`
(= `arange(0, 8)`), `y_data = [10,10,10,0,10,10,10,10]`.  The heuristic
estimates are `peak_center = 3`, `fwhm = 1`, so the spec's background set
(samples outside `[0, 6]`) is `{7}`; but `idx1 = 0`, `idx2 = 1`, and the slice
pair `x_data[0:0] ++ x_data[-1:-1]` is empty: the code's background sample set
omits the sample `x = 7` that lies outside the exclusion interval. -/
theorem background_isolation_bug_eval :
    get_fit_starting_points [0, 1, 2, 3, 4, 5, 6, 7] [10, 10, 10, 0, 10, 10, 10, 10]
      = (3, 1, 5 * mathPi) ∧
    bg_x [0, 1, 2, 3, 4, 5, 6, 7] 3 1 = [] ∧
    bg_y [0, 1, 2, 3, 4, 5, 6, 7] [10, 10, 10, 0, 10, 10, 10, 10] 3 1 = [] ∧
    specBgSet [0, 1, 2, 3, 4, 5, 6, 7] 3 1 = [7] ∧
    bg_x [0, 1, 2, 3, 4, 5, 6, 7] 3 1 ≠ specBgSet [0, 1, 2, 3, 4, 5, 6, 7] 3 1 := by
  refine ⟨?_, ?_, ?_, ?_, ?_⟩ <;>
    norm_num [get_fit_starting_points, peak_sel, peak_height_of, argminIdx, listMinQ,
      listMaxQ, meanQ, maskSelect, pyMax2, mathPi, bg_x, bg_y, bg_samples, bg_idx1,
      bg_idx2, pyNegSlice, specBgSet, List.filter_cons, List.filter_nil,
      List.indexOf_cons, List.zip, List.zipWith]

/-! ### C5 -/

/-- C5 (counterexample): at `x_data = [0,...,7]`, `y_data = [4,4,1,0,1,4,4,100]`
the heuristic of the code returns `(3, 2, 4π)` while the claim's version
(baseline averaging the mean over the full last quartile) returns
`(3, 6, 84π)`: the slice `y_data[-int(n*0.25):-1]` drops the final sample
`100` from the baseline. -/
theorem starting_points_counterexample :
    get_fit_starting_points [0, 1, 2, 3, 4, 5, 6, 7] [4, 4, 1, 0, 1, 4, 4, 100]
      ≠ specStartingPoints [0, 1, 2, 3, 4, 5, 6, 7] [4, 4, 1, 0, 1, 4, 4, 100] ∧
    get_fit_starting_points [0, 1, 2, 3, 4, 5, 6, 7] [4, 4, 1, 0, 1, 4, 4, 100]
      = (3, 2, 4 * mathPi) ∧
    specStartingPoints [0, 1, 2, 3, 4, 5, 6, 7] [4, 4, 1, 0, 1, 4, 4, 100]
      = (3, 6, 84 * mathPi) := by
  refine ⟨?_, ?_, ?_⟩ <;>
    norm_num [get_fit_starting_points, specStartingPoints, peak_sel, peak_height_of,
      argminIdx, listMinQ, listMaxQ, meanQ, maskSelect, pyMax2, mathPi, pyNegSlice,
      List.filter_cons, List.filter_nil, List.indexOf_cons, List.zip, List.zipWith]

/-- C5 (amended): for every sample pair with at least 8 samples (so that both
baseline slices are non-empty), `_get_fit_starting_points` returns the dip
center at the global minimum, the floored FWHM span, and
`peak_height * fwhm * π / 2`, where the baseline averages the first-quartile
mean with the mean over the last quartile of indices *excluding the final
sample* (indices `n - n/4 .. n - 2`). -/
theorem starting_points_amended (x y : List ℚ)
    (hlen : x.length = y.length) (h8 : 8 ≤ x.length) :
    get_fit_starting_points x y = amendedStartingPoints x y := by
  have hq : x.length / 4 ≠ 0 := by omega
  simp only [get_fit_starting_points, amendedStartingPoints, peak_sel, peak_height_of,
    pyNegSlice, if_neg hq]

/-- Witness for C5 (amended) at the counterexample input. -/
theorem starting_points_amended_witness :
    get_fit_starting_points [0, 1, 2, 3, 4, 5, 6, 7] [4, 4, 1, 0, 1, 4, 4, 100]
      = amendedStartingPoints [0, 1, 2, 3, 4, 5, 6, 7] [4, 4, 1, 0, 1, 4, 4, 100] :=
  starting_points_amended [0, 1, 2, 3, 4, 5, 6, 7] [4, 4, 1, 0, 1, 4, 4, 100]
    (by norm_num) (by norm_num)

/-! ### C7 -/

/-- C7 (counterexample): loading a file whose header has no "Frequency" field
raises KeyError (from `self.metadata["Frequency"]`), not the spec's
`ParseError`. -/
theorem load_missing_frequency_counterexample :
    load_freq_phase [] ["# Foo:\t1".data, "# cols".data, "1.0\t2.0".data]
        = .error .keyError ∧
    load_freq_phase [] ["# Foo:\t1".data, "# cols".data, "1.0\t2.0".data]
        ≠ .error .parseError := by
  exact ⟨by decide, by decide⟩

/-- C7 (amended): `freq0` is extracted from the "Frequency" metadata value by
keeping exactly the characters in `"0123456789."` (in order) and parsing the
result as a decimal number; when the field is absent the lookup raises
KeyError, and when the filtered string is not a parsable decimal `float`
raises ValueError — no `ParseError` exists in the code. -/
theorem load_freq_errors (init : MetaDict) (lines : List (List Char)) :
    (dictGet? (load_metadata init lines) "Frequency".data = none →
      load_freq_phase init lines = .error .keyError) ∧
    (∀ v, dictGet? (load_metadata init lines) "Frequency".data = some v →
      pyFloat? (v.filter isFreqChar) = none →
      load_freq_phase init lines = .error .valueError) ∧
    (∀ v q, dictGet? (load_metadata init lines) "Frequency".data = some v →
      pyFloat? (v.filter isFreqChar) = some q →
      load_freq_phase init lines = .ok q) := by
  refine ⟨fun h => ?_, fun v hv hf => ?_, fun v q hv hf => ?_⟩ <;>
    simp [load_freq_phase, extract_freq0, *]

/-- Witness for C7 (amended): a header with `Frequency: 9.4 GHz` loads
`freq0 = 9.4 = 47/5`. -/
theorem load_freq_errors_witness :
    load_freq_phase [] ["# Frequency:\t9.4 GHz".data, "# cols".data, "1\t2".data]
      = .ok (47 / 5) := by
  have hf : pyFloat? ("9.4 GHz".data.filter isFreqChar) = some (47 / 5) := by
    rw [show "9.4 GHz".data.filter isFreqChar = "9.4".data by decide]
    rw [pyFloat?, show pyFloatDigits "9.4".data = some (9, 4, 1) by decide]
    rw [Option.map_some']
    norm_num
  exact (load_freq_errors [] ["# Frequency:\t9.4 GHz".data, "# cols".data, "1\t2".data]).2.2
    "9.4 GHz".data (47 / 5) (by decide) hf

/-! ### C10 -/

/-- C10 (counterexample): with a file whose last header line is itself a
matching metadata line, `load` scans only `lines[:header_count - 1]` and drops
that pair; the claim's mapping (all matching header lines) keeps it. -/
theorem load_metadata_counterexample :
    load_metadata [("Old".data, "x".data)]
        ["# Frequency:\t9.4 GHz".data, "# A:\t1".data, "1.0\t2.0".data]
      ≠ specHeaderMeta ["# Frequency:\t9.4 GHz".data, "# A:\t1".data, "1.0\t2.0".data] ∧
    load_metadata [("Old".data, "x".data)]
        ["# Frequency:\t9.4 GHz".data, "# A:\t1".data, "1.0\t2.0".data]
      = [("Frequency".data, "9.4 GHz".data)] ∧
    specHeaderMeta ["# Frequency:\t9.4 GHz".data, "# A:\t1".data, "1.0\t2.0".data]
      = [("Frequency".data, "9.4 GHz".data), ("A".data, "1".data)] := by
  exact ⟨by decide, by decide, by decide⟩

/-- Folding a parse-and-skip loop equals folding over the `filterMap` of the
parser. -/
theorem foldl_parse_skip (l : List (List Char)) :
    ∀ d : MetaDict,
      l.foldl
        (fun d line =>
          match parseHeaderLine line with
          | some kv => dictSet d kv.1 kv.2
          | none => d)
        d
      = (l.filterMap parseHeaderLine).foldl (fun d kv => dictSet d kv.1 kv.2) d := by
  induction l with
  | nil => intro d; rfl
  | cons line t ih =>
    intro d
    rw [List.foldl_cons, List.filterMap_cons]
    cases h : parseHeaderLine line with
    | none => rw [ih]
    | some kv => rw [List.foldl_cons, ih]

/-- C10 (amended): after the metadata phase of `load`, the mapping contains
exactly the key-value pairs of the matching lines among
`lines[:header_count - 1]` (not among all header lines); whatever metadata the
mapping held before has been removed (`clear()`), and the non-matching lines
in that range are skipped silently. -/
theorem load_metadata_amended (init : MetaDict) (lines : List (List Char)) :
    load_metadata init lines = load_metadata [] lines ∧
    load_metadata init lines
      = ((metadataLines lines).filterMap parseHeaderLine).foldl
          (fun d kv => dictSet d kv.1 kv.2) [] := by
  exact ⟨rfl, foldl_parse_skip (metadataLines lines) []⟩

/-! ### C9 -/

theorem dropLast_drop_subset (l : List ℚ) : ∀ m : ℕ, (l.drop m).dropLast ⊆ l.dropLast := by
  induction l with
  | nil => intro m; simp
  | cons a t ih =>
    intro m
    cases m with
    | zero => exact List.Subset.refl _
    | succ m =>
      rw [List.drop_succ_cons]
      refine (ih m).trans ?_
      cases t with
      | nil => simp
      | cons b t' =>
        rw [List.dropLast_cons₂]
        exact fun v hv => List.mem_cons_of_mem a hv

theorem pyNegSlice_subset_dropLast (l : List ℚ) (k : ℕ) : pyNegSlice l k ⊆ l.dropLast := by
  unfold pyNegSlice
  by_cases hk : k = 0
  · rw [if_pos hk]
    exact List.Subset.refl _
  · rw [if_neg hk]
    exact dropLast_drop_subset l (l.length - k)

theorem take_subset_dropLast (l : List ℚ) (k : ℕ) (hk : k ≤ l.length - 1) :
    l.take k ⊆ l.dropLast := by
  intro a ha
  rw [List.dropLast_eq_take]
  have h1 : (l.take (l.length - 1)).take k = l.take k := by
    rw [List.take_take, Nat.min_eq_left hk]
  rw [← h1] at ha
  exact List.take_subset _ _ ha

theorem getLast_not_mem_dropLast (l : List ℚ) (h : l ≠ []) (hnd : l.Nodup) :
    l.getLast h ∉ l.dropLast := by
  have hsplit : l.dropLast ++ [l.getLast h] = l := List.dropLast_append_getLast h
  have hnd2 : (l.dropLast ++ [l.getLast h]).Nodup := by rw [hsplit]; exact hnd
  obtain ⟨-, -, hdisj⟩ := List.nodup_append.mp hnd2
  intro hmem
  exact hdisj hmem (List.mem_singleton_self _)

theorem bg_idx1_lt_length (x : List ℚ) (c f : ℚ) (hc : c ∈ x) (hf : 0 < f) :
    bg_idx1 x c f < x.length := by
  refine List.length_filter_lt_length_iff_exists.mpr ⟨c, hc, ?_⟩
  simp only [decide_eq_true_eq]
  intro habs
  linarith

/-- C9: in `fit_qvalue`, with the heuristic estimates for `peak_center` and
`fwhm`, the last sample is always excluded from the background sample set
(for x-data without duplicate values, as the point axes passed to
`fit_qvalue` are); and when no sample satisfies
`x > peak_center + 3*fwhm` (`idx2 = 0`), the slice `x_data[-idx2:-1]` denotes
the whole array except its last element, so the background set contains every
sample but the last, including the entire dip region. -/
theorem bg_last_excluded (x y : List ℚ) (hlen : x.length = y.length)
    (hne : x ≠ []) (hnd : x.Nodup) :
    (x.getLast hne ∉
      bg_x x (get_fit_starting_points x y).1 (get_fit_starting_points x y).2.1) ∧
    (bg_idx2 x (get_fit_starting_points x y).1 (get_fit_starting_points x y).2.1 = 0 →
      pyNegSlice x 0 = x.dropLast ∧
      ∀ a ∈ x.dropLast,
        a ∈ bg_x x (get_fit_starting_points x y).1 (get_fit_starting_points x y).2.1) := by
  have hf1 : (1 : ℚ) ≤ (get_fit_starting_points x y).2.1 := fwhm_ge_one x y
  have hc : (get_fit_starting_points x y).1 ∈ x := peak_center_mem x y hlen hne
  have hidx1 : bg_idx1 x (get_fit_starting_points x y).1 (get_fit_starting_points x y).2.1
      < x.length :=
    bg_idx1_lt_length x _ _ hc (by linarith)
  constructor
  · intro hmem
    rcases List.mem_append.mp hmem with hmem1 | hmem2
    · exact getLast_not_mem_dropLast x hne hnd
        (take_subset_dropLast x _ (by omega) hmem1)
    · exact getLast_not_mem_dropLast x hne hnd
        (pyNegSlice_subset_dropLast x _ hmem2)
  · intro h2
    have hslice : pyNegSlice x 0 = x.dropLast := by simp [pyNegSlice]
    refine ⟨hslice, fun a ha => ?_⟩
    show a ∈ x.take _ ++ pyNegSlice x _
    rw [h2, hslice]
    exact List.mem_append_right _ ha

/-- Witness for C9 at `x_data = [0,...,7]`, `y_data = [4,4,1,0,1,4,4,100]`
(an input with `idx2 = 0` so that both conjuncts apply). -/
theorem bg_last_excluded_witness :
    (([0, 1, 2, 3, 4, 5, 6, 7] : List ℚ).getLast (by decide) ∉
      bg_x [0, 1, 2, 3, 4, 5, 6, 7]
        (get_fit_starting_points [0, 1, 2, 3, 4, 5, 6, 7] [4, 4, 1, 0, 1, 4, 4, 100]).1
        (get_fit_starting_points [0, 1, 2, 3, 4, 5, 6, 7] [4, 4, 1, 0, 1, 4, 4, 100]).2.1) ∧
    (bg_idx2 [0, 1, 2, 3, 4, 5, 6, 7]
        (get_fit_starting_points [0, 1, 2, 3, 4, 5, 6, 7] [4, 4, 1, 0, 1, 4, 4, 100]).1
        (get_fit_starting_points [0, 1, 2, 3, 4, 5, 6, 7] [4, 4, 1, 0, 1, 4, 4, 100]).2.1
          = 0 →
      pyNegSlice [0, 1, 2, 3, 4, 5, 6, 7] 0 = ([0, 1, 2, 3, 4, 5, 6, 7] : List ℚ).dropLast ∧
      ∀ a ∈ ([0, 1, 2, 3, 4, 5, 6, 7] : List ℚ).dropLast,
        a ∈ bg_x [0, 1, 2, 3, 4, 5, 6, 7]
          (get_fit_starting_points [0, 1, 2, 3, 4, 5, 6, 7] [4, 4, 1, 0, 1, 4, 4, 100]).1
          (get_fit_starting_points [0, 1, 2, 3, 4, 5, 6, 7] [4, 4, 1, 0, 1, 4, 4, 100]).2.1) :=
  bg_last_excluded [0, 1, 2, 3, 4, 5, 6, 7] [4, 4, 1, 0, 1, 4, 4, 100]
    (by decide) (by decide) (by norm_num)

/-! ### C2 -/

theorem arangeQ_length (n : ℕ) : (arangeQ n).length = n := by
  simp [arangeQ]

theorem fit_qvalue_chk_ok_length {x y : List ℚ} {v : ℚ × ℚ × ℚ}
    (h : fit_qvalue_chk x y = .ok v) : y.length = x.length := by
  unfold fit_qvalue_chk at h
  split_ifs at h with h1 h2 h3 h4
  all_goals first
    | exact Except.noConfusion h
    | exact not_ne_iff.mp h3

theorem per_zoom_fits_ok_length {xpts : List ℚ} :
    ∀ {entries : List (ℚ × List ℚ)}, per_zoom_fits xpts entries = .ok () →
      ∀ p ∈ entries, p.2.length = xpts.length := by
  intro entries
  induction entries with
  | nil =>
    intro _ p hp
    cases hp
  | cons e t ih =>
    obtain ⟨zf, curve⟩ := e
    intro h p hp
    rw [per_zoom_fits] at h
    cases hfit : fit_qvalue_chk xpts curve with
    | error err =>
      rw [hfit] at h
      exact Except.noConfusion h
    | ok v =>
      rw [hfit] at h
      rcases List.mem_cons.mp hp with hp1 | hp1
      · rw [hp1]
        exact fit_qvalue_chk_ok_length hfit
      · exact ih h p hp1

theorem pairLe_total : ∀ a b : ℚ × ℚ, pairLe a b ∨ pairLe b a := fun a b => le_total a.1 b.1

theorem sorted_map_fst_of_sorted_pairLe {l : List (ℚ × ℚ)} (h : List.Sorted pairLe l) :
    (l.map Prod.fst).Sorted (· ≤ ·) :=
  List.pairwise_map.mpr h

/-- C2: whenever `combine_data` returns (every per-zoom pre-fit stage
succeeded — which forces every curve to have the first curve's length), the
returned triple satisfies the combination contract `combineOutputSpec`. -/
theorem combine_data_spec (mode_pic_data : List (ℚ × List ℚ)) (x0of : ℚ → ℚ)
    (mhz pts pic : List ℚ)
    (h : combine_data mode_pic_data x0of = .ok (mhz, pts, pic)) :
    combineOutputSpec mode_pic_data x0of mhz pts pic := by
  match mode_pic_data with
  | [] => exact Except.noConfusion h
  | (zf0, curve0) :: rest =>
    rw [combine_data] at h
    cases hfits : per_zoom_fits (arangeQ curve0.length) ((zf0, curve0) :: rest) with
    | error err =>
      rw [hfits] at h
      exact Except.noConfusion h
    | ok u =>
      cases u
      rw [hfits] at h
      simp only [Except.ok.injEq, Prod.mk.injEq] at h
      obtain ⟨h1, h2, h3⟩ := h
      -- abbreviations
      have hlens : ∀ p ∈ (zf0, curve0) :: rest, p.2.length = curve0.length := by
        intro p hp
        have := per_zoom_fits_ok_length hfits p hp
        rwa [arangeQ_length] at this
      have hpairs : (combined_unsorted ((zf0, curve0) :: rest) x0of).length
          = (((zf0, curve0) :: rest).map (fun p => p.2.length)).sum := by
        unfold combined_unsorted
        rw [List.length_zip, List.length_flatten, List.length_flatten,
          List.map_map, List.map_map]
        have e1 : ((zf0, curve0) :: rest).map
              (List.length ∘ fun p => points_to_mhz
                (((zf0, curve0) :: rest).head?.elim 0 fun p => p.2.length) p.1 (x0of p.1))
            = ((zf0, curve0) :: rest).map (fun p => p.2.length) := by
          refine List.map_congr_left fun p hp => ?_
          show (points_to_mhz _ _ _).length = p.2.length
          rw [points_to_mhz_length]
          simp only [List.head?_cons, Option.elim_some]
          exact (hlens p hp).symm
        have e2 : ((zf0, curve0) :: rest).map (List.length ∘ fun p => p.2)
            = ((zf0, curve0) :: rest).map (fun p => p.2.length) := rfl
        rw [e1, e2, Nat.min_self]
      set sorted := List.insertionSort pairLe (combined_unsorted ((zf0, curve0) :: rest) x0of)
        with hsorted
      have hperm : sorted.Perm (combined_unsorted ((zf0, curve0) :: rest) x0of) :=
        List.perm_insertionSort pairLe _
      have hslen : sorted.length = (((zf0, curve0) :: rest).map (fun p => p.2.length)).sum :=
        hperm.length_eq.trans hpairs
      refine ⟨?_, ?_, ?_, ?_, ?_, ?_⟩
      · rw [← h1, List.length_map]
        exact hslen
      · rw [← h2, List.length_map, List.length_map]
        exact hslen
      · rw [← h3, List.length_map]
        exact hslen
      · rw [← h1]
        exact sorted_map_fst_of_sorted_pairLe (List.sorted_insertionSort pairLe _)
      · rw [← h1, ← h3]
        have hz : (sorted.map Prod.fst).zip (sorted.map Prod.snd) = sorted := by
          have hu := List.zip_unzip sorted
          rwa [List.unzip_eq_map] at hu
        rw [hz]
        exact hperm
      · intro i
        rw [← h2, ← h1]
        rw [List.getD_eq_getElem?_getD, List.getD_eq_getElem?_getD, List.getElem?_map]
        cases hg : (sorted.map Prod.fst)[i]? with
        | none =>
          simp only [Option.map_none', Option.getD_none]
          norm_num
        | some v =>
          simp only [Option.map_some', Option.getD_some]
          norm_num

/-- Witness for C2: a one-zoom dataset with an 8-sample curve; `combine_data`
succeeds and its output satisfies the contract. -/
theorem combine_data_spec_witness :
    combineOutputSpec [(1, [4, 4, 1, 0, 1, 4, 4, 4])] (fun _ => 0)
      [0, 1/2000, 1/1000, 3/2000, 1/500, 1/400, 3/1000, 7/2000]
      [0, 1, 2, 3, 4, 5, 6, 7]
      [4, 4, 1, 0, 1, 4, 4, 4] :=
  combine_data_spec [(1, [4, 4, 1, 0, 1, 4, 4, 4])] (fun _ => 0)
    [0, 1/2000, 1/1000, 3/2000, 1/500, 1/400, 3/1000, 7/2000]
    [0, 1, 2, 3, 4, 5, 6, 7]
    [4, 4, 1, 0, 1, 4, 4, 4]
    (by norm_num [combine_data, per_zoom_fits, fit_qvalue_chk, get_fit_starting_points,
      peak_sel, peak_height_of, argminIdx, listMinQ, listMaxQ, meanQ, maskSelect, pyMax2,
      pyNegSlice, bg_x, bg_samples, bg_idx1, bg_idx2, arangeQ, List.range_succ,
      combined_unsorted, points_to_mhz, List.insertionSort, List.orderedInsert, pairLe,
      List.filter_cons, List.filter_nil, List.indexOf_cons, List.zip, List.zipWith])

/-! ### C6 -/

theorem fit_qvalue_chk_error_shape {x y : List ℚ} {e : PyErr}
    (h : fit_qvalue_chk x y = .error e) :
    e = .indexError ∨ e = .valueError ∨ e = .typeError := by
  unfold fit_qvalue_chk at h
  split_ifs at h with h1 h2 h3 h4 h5 <;>
    simp only [Except.error.injEq, reduceCtorEq] at h <;> (subst h; tauto)


theorem per_zoom_fits_error_shape {xpts : List ℚ} :
    ∀ {entries : List (ℚ × List ℚ)} {e : PyErr},
      per_zoom_fits xpts entries = .error e →
      e = .indexError ∨ e = .valueError ∨ e = .typeError := by
  intro entries
  induction entries with
  | nil =>
    intro e h
    exact Except.noConfusion h
  | cons p t ih =>
    obtain ⟨zf, curve⟩ := p
    intro e h
    rw [per_zoom_fits] at h
    cases hfit : fit_qvalue_chk xpts curve with
    | error err =>
      rw [hfit] at h
      simp only [Except.error.injEq] at h
      subst h
      exact fit_qvalue_chk_error_shape hfit
    | ok v =>
      rw [hfit] at h
      exact ih h

theorem combine_data_no_validation (data : List (ℚ × List ℚ)) (x0of : ℚ → ℚ) :
    combine_data data x0of ≠ .error .validationError := by
  intro h
  match data, h with
  | [], h =>
    rw [combine_data] at h
    simp at h
  | (zf0, curve0) :: rest, h =>
    rw [combine_data] at h
    cases hfits : per_zoom_fits (arangeQ curve0.length) ((zf0, curve0) :: rest) with
    | error err =>
      rw [hfits] at h
      simp only [Except.error.injEq] at h
      subst h
      rcases per_zoom_fits_error_shape hfits with h' | h' | h' <;> exact PyErr.noConfusion h'
    | ok u =>
      cases u
      rw [hfits] at h
      exact Except.noConfusion h

theorem combine_data_mismatch (z1 : ℚ) (c1 : List ℚ) (z2 : ℚ) (c2 : List ℚ)
    (rest : List (ℚ × List ℚ)) (x0of : ℚ → ℚ)
    (h1 : ∃ v, fit_qvalue_chk (arangeQ c1.length) c1 = .ok v)
    (hne : c2 ≠ []) (hlen : c2.length ≠ c1.length) :
    combine_data ((z1, c1) :: (z2, c2) :: rest) x0of = .error .indexError := by
  obtain ⟨v, hv⟩ := h1
  have h2 : fit_qvalue_chk (arangeQ c1.length) c2 = .error .indexError := by
    unfold fit_qvalue_chk
    rw [if_neg (by simp [List.isEmpty_iff, hne] : ¬(c2.isEmpty = true))]
    by_cases harg : (arangeQ c1.length).length ≤ argminIdx c2
    · rw [if_pos harg]
    · rw [if_neg harg, if_pos (by rw [arangeQ_length]; exact hlen)]
  have hfits : per_zoom_fits (arangeQ c1.length) ((z1, c1) :: (z2, c2) :: rest)
      = .error .indexError := by
    rw [per_zoom_fits, hv, per_zoom_fits, h2]
  rw [combine_data, hfits]

/-- C6 (amended): the code performs no validation of curve lengths — no
execution of `combine_data` produces a `ValidationError`; instead, for a
dataset whose second curve is non-empty and differs in length from the first
(and whose first curve passes the pre-fit stages), the per-zoom fit inside
`combine_data` raises IndexError (numpy boolean-mask/index length mismatch):
the failure happens *during* combining, not before it. -/
theorem combine_mismatched_lengths_behaviour :
    (∀ (data : List (ℚ × List ℚ)) (x0of : ℚ → ℚ),
      combine_data data x0of ≠ .error .validationError) ∧
    (∀ (z1 : ℚ) (c1 : List ℚ) (z2 : ℚ) (c2 : List ℚ) (rest : List (ℚ × List ℚ))
        (x0of : ℚ → ℚ),
      (∃ v, fit_qvalue_chk (arangeQ c1.length) c1 = .ok v) →
      c2 ≠ [] → c2.length ≠ c1.length →
      combine_data ((z1, c1) :: (z2, c2) :: rest) x0of = .error .indexError) :=
  ⟨combine_data_no_validation, combine_data_mismatch⟩

/-- Witness for C6 (amended): an 8-sample first curve and a 3-sample second
curve make `combine_data` fail with IndexError. -/
theorem combine_mismatched_lengths_behaviour_witness :
    combine_data [((1 : ℚ), ([4, 4, 1, 0, 1, 4, 4, 4] : List ℚ)), (2, [1, 2, 3])]
        (fun _ => 0)
      = .error .indexError :=
  combine_mismatched_lengths_behaviour.2 1 [4, 4, 1, 0, 1, 4, 4, 4] 2 [1, 2, 3] []
    (fun _ => 0)
    ⟨(3, 2, 4 * mathPi), by
      norm_num [fit_qvalue_chk, get_fit_starting_points, peak_sel, peak_height_of,
        argminIdx, listMinQ, listMaxQ, meanQ, maskSelect, pyMax2, pyNegSlice, bg_x,
        bg_samples, bg_idx1, bg_idx2, mathPi, arangeQ, List.range_succ, List.filter_cons,
        List.filter_nil, List.indexOf_cons, List.zip, List.zipWith]⟩
    (by simp) (by simp)

/-- C6 (counterexample): at the concrete malformed dataset
`{1: 8-sample curve, 2: [1,2,3]}` the constructor path raises IndexError —
not the ValidationError the claim asserts. -/
theorem combine_mismatch_counterexample :
    combine_data [((1 : ℚ), ([4, 4, 1, 0, 1, 4, 4, 4] : List ℚ)), (2, [1, 2, 3])]
        (fun _ => 0)
      = .error .indexError ∧
    combine_data [((1 : ℚ), ([4, 4, 1, 0, 1, 4, 4, 4] : List ℚ)), (2, [1, 2, 3])]
        (fun _ => 0)
      ≠ .error .validationError := by
  have h : combine_data [((1 : ℚ), ([4, 4, 1, 0, 1, 4, 4, 4] : List ℚ)), (2, [1, 2, 3])]
      (fun _ => 0) = .error .indexError := by
    norm_num [combine_data, per_zoom_fits, fit_qvalue_chk, get_fit_starting_points,
      peak_sel, peak_height_of, argminIdx, listMinQ, listMaxQ, meanQ, maskSelect, pyMax2,
      pyNegSlice, bg_x, bg_samples, bg_idx1, bg_idx2, arangeQ, List.range_succ,
      List.filter_cons, List.filter_nil, List.indexOf_cons, List.zip, List.zipWith]
  refine ⟨h, ?_⟩
  rw [h]
  simp

end ModePictureModel
